import Mathlib

/-!
Verification development for the auto-commit-message CLI (src/index.js).

The core of the program is embedded shallowly: the JavaScript string
primitives it relies on (trim, split on newline, includes, startsWith,
endsWith, toLowerCase, parseInt) are modelled as executable functions on
character lists, and the four program functions (`generateCommitMessage`,
`commitChanges`, `selectAndCommit`, `main`) become pure Lean functions over
explicit collaborator inputs (the staged diff, the generation response, the
stream of operator answers, the git state), returning a result together
with a trace of the externally observable events (generation requests,
commit invocations, diagnostics).
-/

namespace AutoCommit

/-! ## JavaScript string primitives, modelled on character lists -/

/-- Model of the JavaScript whitespace test used by `String.prototype.trim`
(restricted to the ASCII whitespace characters that occur in practice). -/
def jsWhitespace (c : Char) : Bool :=
  c == ' ' || c == '\t' || c == '\r' || c == '\n'

/-- Model of `String.prototype.trim` on a character list: drop leading and
trailing whitespace. -/
def jsTrimChars (cs : List Char) : List Char :=
  ((cs.dropWhile jsWhitespace).reverse.dropWhile jsWhitespace).reverse

/-- Model of `String.prototype.trim`. -/
def jsTrim (s : String) : String :=
  String.mk (jsTrimChars s.data)

/-- Split a character list at every newline character, the model of
`String.prototype.split("\n")`. -/
def splitOnNewline : List Char → List (List Char)
  | [] => [[]]
  | c :: tl =>
    if c == '\n' then [] :: splitOnNewline tl
    else
      match splitOnNewline tl with
      | [] => [[c]]
      | h :: t => (c :: h) :: t

/-- True when the list begins with the given pattern. -/
def leadsWith : List Char → List Char → Bool
  | [], _ => true
  | _ :: _, [] => false
  | p :: ps, c :: cs => p == c && leadsWith ps cs

/-- True when the pattern occurs contiguously somewhere in the list, the
model of `String.prototype.includes`. -/
def containsSeq (pat : List Char) : List Char → Bool
  | [] => leadsWith pat []
  | c :: tl => leadsWith pat (c :: tl) || containsSeq pat tl

/-- Model of `String.prototype.includes`. -/
def jsIncludes (s pat : String) : Bool :=
  containsSeq pat.data s.data

/-- Model of `String.prototype.startsWith`. -/
def jsStartsWith (s pat : String) : Bool :=
  leadsWith pat.data s.data

/-- Model of `String.prototype.endsWith`. -/
def jsEndsWith (s pat : String) : Bool :=
  leadsWith pat.data.reverse s.data.reverse

/-- Model of `String.prototype.toLowerCase` (ASCII letters). -/
def jsToLower (s : String) : String :=
  String.mk (s.data.map Char.toLower)

/-- Accumulate the value of a run of decimal digits. -/
def digitsToNat : List Char → Nat → Nat
  | [], acc => acc
  | c :: cs, acc => digitsToNat cs (acc * 10 + (c.toNat - '0'.toNat))

/-- Parse the longest leading run of decimal digits; `none` when the list
does not begin with a digit (the NaN case of `parseInt`). -/
def parseLeadingDigits (cs : List Char) : Option Nat :=
  let ds := cs.takeWhile Char.isDigit
  if ds.isEmpty then none else some (digitsToNat ds 0)

/-- Model of `parseInt(s, 10)`: skip leading whitespace, accept an optional
sign, then read the longest run of decimal digits; `none` models NaN. -/
def jsParseInt (s : String) : Option Int :=
  match s.data.dropWhile jsWhitespace with
  | '-' :: rest => (parseLeadingDigits rest).map (fun n => -(n : Int))
  | '+' :: rest => (parseLeadingDigits rest).map (fun n => (n : Int))
  | cs => (parseLeadingDigits cs).map (fun n => (n : Int))

/-! ## Observable events and collaborator state -/

/-- Externally observable events of a run: the single generation request,
the git commit invocation, and the diagnostics the program prints. -/
inductive Event
  | genRequest (diffText : String)
  | warnFormatMismatch
  | logNoUsable
  | errNoText
  | errApi
  | commitCall (message : String) (sign : Bool)
  deriving DecidableEq

/-- Classification of a commit attempt, from `commitChanges`. -/
inductive CommitResult
  | success
  | nothingToCommit
  | signingFailed
  | otherFailure (detail : String)
  deriving DecidableEq

/-- State of the version-control collaborator at commit time:
`stagedCount` is `status.staged.length`, `cachedDiff` is the output of
`git diff --cached`, and `commitOutcome` is what `git.commit` would do
(success, or failure with an error message). -/
structure GitState where
  stagedCount : Nat
  cachedDiff : String
  commitOutcome : Except String Unit

/-! ## SuggestionGenerator (generateCommitMessage, src/index.js:85-151) -/

/-- Format filter applied to each trimmed line of the generation response:
it must contain a colon and both parentheses and must not start or end with
a triple-backtick marker (src/index.js:121-128). -/
def isValidSuggestion (s : String) : Bool :=
  jsIncludes s ":" && jsIncludes s "(" && jsIncludes s ")" &&
    !(jsStartsWith s "```") && !(jsEndsWith s "```")

/-- The `suggestions` list of `generateCommitMessage`: trim the raw response,
split it on newlines, trim each line, and drop blank lines
(src/index.js:116-120). -/
def rawLines (rawText : String) : List String :=
  (((splitOnNewline (jsTrimChars rawText.data)).map
      (fun l => String.mk (jsTrimChars l))).filter (fun s => s != ""))

/-- The `validSuggestions` list of `generateCommitMessage`
(src/index.js:121-128). -/
def validSuggestions (rawText : String) : List String :=
  (rawLines rawText).filter isValidSuggestion

/-- Embedding of `generateCommitMessage` (src/index.js:85-151). The
generation collaborator is passed in as `genResult`: `Except.error ()` is a
thrown transport error, `Except.ok rawText` is a textual response. Returns
the suggestion list (`none` embeds the JavaScript `null`) together with the
trace of observable events. The try/catch that converts every failure into
`null` plus a printed diagnostic is embedded by totality: every branch
returns a value. -/
def generateCommitMessage (diffText : String) (genResult : Except Unit String) :
    Option (List String) × List Event :=
  if diffText = "" then (none, [])
  else
    match genResult with
    | .error _ => (none, [.genRequest diffText, .errApi])
    | .ok rawText =>
      if rawText = "" then (none, [.genRequest diffText, .errNoText])
      else
        let suggestions := rawLines rawText
        let valid := suggestions.filter isValidSuggestion
        if valid.isEmpty && !suggestions.isEmpty then
          (some suggestions, [.genRequest diffText, .warnFormatMismatch])
        else if suggestions.isEmpty then
          (none, [.genRequest diffText, .logNoUsable])
        else
          (some valid, [.genRequest diffText])

/-! ## CommitExecutor (commitChanges, src/index.js:158-216) -/

/-- Classification of the error message thrown by `git.commit`
(src/index.js:187-215): the message is lowercased, matched against the
nothing-to-commit phrases, then (only when signing was requested) against
the GPG failure phrases, and otherwise reported as an other failure with
the original detail. -/
def classifyCommitError (errMsg : String) (useGpgSign : Bool) : CommitResult :=
  let m := jsToLower errMsg
  if jsIncludes m "nothing to commit" ||
      jsIncludes m "no changes added to commit" ||
      jsIncludes m "changes not staged for commit" then
    .nothingToCommit
  else if useGpgSign &&
      (jsIncludes m "gpg failed to sign the data" ||
        jsIncludes m "no default secret key") then
    .signingFailed
  else
    .otherFailure errMsg

/-- Embedding of `commitChanges` (src/index.js:158-216). The staged status
is re-checked first: when `status.staged` is empty and `git diff --cached`
is empty the function returns without invoking `git.commit` (no
`commitCall` event). Otherwise `git.commit` is invoked and its outcome is
classified. -/
def commitChanges (message : String) (useGpgSign : Bool) (g : GitState) :
    CommitResult × List Event :=
  if g.stagedCount = 0 ∧ g.cachedDiff = "" then
    (.nothingToCommit, [])
  else
    match g.commitOutcome with
    | .ok _ => (.success, [.commitCall message useGpgSign])
    | .error e => (classifyCommitError e useGpgSign, [.commitCall message useGpgSign])

/-! ## SelectionController (selectAndCommit, src/index.js:222-301) -/

/-- Outcome of the message-selection phase: a chosen message, a cancelled
run, or a run blocked forever on an operator who never answers (the input
stream ran out at a prompt). -/
inductive SelStep
  | chosen (msg : String)
  | cancelled
  | blocked
  deriving DecidableEq

/-- A confirmed commit request: the chosen message and the signing flag. -/
structure CommitRequest where
  message : String
  sign : Bool
  deriving DecidableEq

/-- The `while (true)` choice loop of `selectAndCommit` for a non-empty
suggestion list (src/index.js:250-283). Each iteration reads one answer:
an in-range number selects that suggestion, `N+1` reads a manual message
(blank manual input stays in the loop), `N+2` cancels, and anything else
(including non-numeric input) re-prompts. Returns the outcome and the
unconsumed answers. -/
def chooseLoop (suggestions : List String) : List String → SelStep × List String
  | [] => (.blocked, [])
  | [choiceStr] =>
    match jsParseInt choiceStr with
    | some choice =>
      if 1 ≤ choice ∧ choice ≤ (suggestions.length : Int) then
        (.chosen (suggestions.getD (choice - 1).toNat ""), [])
      else if choice = (suggestions.length : Int) + 1 then
        (.blocked, [])
      else if choice = (suggestions.length : Int) + 2 then
        (.cancelled, [])
      else
        chooseLoop suggestions []
    | none => chooseLoop suggestions []
  | choiceStr :: m :: rest2 =>
    match jsParseInt choiceStr with
    | some choice =>
      if 1 ≤ choice ∧ choice ≤ (suggestions.length : Int) then
        (.chosen (suggestions.getD (choice - 1).toNat ""), m :: rest2)
      else if choice = (suggestions.length : Int) + 1 then
        if jsTrim m ≠ "" then (.chosen (jsTrim m), rest2)
        else chooseLoop suggestions rest2
      else if choice = (suggestions.length : Int) + 2 then
        (.cancelled, m :: rest2)
      else
        chooseLoop suggestions (m :: rest2)
    | none => chooseLoop suggestions (m :: rest2)

/-- The empty-suggestions branch of `selectAndCommit`
(src/index.js:226-241): offer manual entry; any answer other than `y`
(case-insensitively) cancels; a blank manual message cancels immediately;
a non-blank manual message is the chosen message. -/
def emptyBranch : List String → SelStep × List String
  | [] => (.blocked, [])
  | [useManual] =>
    if jsToLower useManual = "y" then (.blocked, [])
    else (.cancelled, [])
  | useManual :: m :: rest2 =>
    if jsToLower useManual = "y" then
      if jsTrim m ≠ "" then (.chosen (jsTrim m), rest2)
      else (.cancelled, rest2)
    else (.cancelled, m :: rest2)

/-- The message-selection phase of `selectAndCommit`: the empty branch when
the suggestion list is `null` or empty, the choice loop otherwise
(src/index.js:226-284). -/
def chooseMessage (suggestions : Option (List String)) (inputs : List String) :
    SelStep × List String :=
  match suggestions with
  | none => emptyBranch inputs
  | some l => if l.isEmpty then emptyBranch inputs else chooseLoop l inputs

/-- The confirmation and signing prompts of `selectAndCommit`
(src/index.js:287-300): any confirmation answer other than `y`
(case-insensitively) cancels; otherwise the signing answer `y`
(case-insensitively) sets the signing flag and a `CommitRequest` is
produced. Returns the request (or `none`) and the unconsumed answers. -/
def confirmSign (message : String) : List String → Option CommitRequest × List String
  | [] => (none, [])
  | [_] => (none, [])
  | conf :: s :: rest2 =>
    if jsToLower conf = "y" then (some ⟨message, jsToLower s == "y"⟩, rest2)
    else (none, s :: rest2)

/-- The `CommitRequest` produced by one run of the selection flow
(src/index.js:222-300): the selection phase must end in a chosen message,
the message must be non-empty (the `if (commitMessage)` guard), and the
confirmation prompt must be answered affirmatively. -/
def afterChoice (step : SelStep) (rest : List String) : Option CommitRequest :=
  match step with
  | .chosen m => if m ≠ "" then (confirmSign m rest).1 else none
  | .cancelled => none
  | .blocked => none

/-- The `CommitRequest` produced by one full run of the selection flow:
the selection phase followed by confirmation and signing. -/
def selectionOutcome (suggestions : Option (List String)) (inputs : List String) :
    Option CommitRequest :=
  afterChoice (chooseMessage suggestions inputs).1 (chooseMessage suggestions inputs).2

/-- Embedding of `selectAndCommit` (src/index.js:222-301): `commitChanges`
is invoked exactly when the selection flow produced a `CommitRequest`.
Returns the commit result (`none` when no commit was attempted) and the
event trace. -/
def selectAndCommit (suggestions : Option (List String)) (inputs : List String)
    (g : GitState) : Option CommitResult × List Event :=
  match selectionOutcome suggestions inputs with
  | some req =>
    (some (commitChanges req.message req.sign g).1, (commitChanges req.message req.sign g).2)
  | none => (none, [])

/-! ## DiffSource and Orchestrator (getStagedChanges and main, src/index.js:57-78, 306-324) -/

/-- Embedding of `getStagedChanges` (src/index.js:57-78): `none` when the
directory is not a git repository, when the diff retrieval fails, or when
the staged diff is empty; otherwise the non-empty diff text. -/
def getStagedChanges (isRepo : Bool) (diffResult : Except String String) :
    Option String :=
  if !isRepo then none
  else
    match diffResult with
    | .error _ => none
    | .ok s => if s = "" then none else some s

/-- Embedding of `main` (src/index.js:306-324): when a diff is present the
generator runs and its suggestions feed the selection flow; otherwise the
run ends after a diagnostic, with no generation and no commit. The trace is
the concatenation of the generator's and the selection flow's events. -/
def mainRun (isRepo : Bool) (diffResult : Except String String)
    (genResult : Except Unit String) (inputs : List String) (g : GitState) :
    List Event :=
  match getStagedChanges isRepo diffResult with
  | some d =>
    match generateCommitMessage d genResult with
    | (sugg, ev1) =>
      match selectAndCommit sugg inputs g with
      | (_, ev2) => ev1 ++ ev2
  | none => []

/-- True on the generation-request event, used to count requests. -/
def isGenRequest : Event → Bool
  | .genRequest _ => true
  | _ => false

/-! ## Helper lemmas -/

/-- An empty generation response yields no raw lines. -/
lemma rawLines_empty : rawLines "" = [] := by decide

/-- A non-empty list is not `isEmpty`. -/
lemma isEmpty_false_of_ne_nil {α : Type} {l : List α} (h : l ≠ []) :
    l.isEmpty = false := by
  cases l with
  | nil => exact absurd rfl h
  | cons a t => rfl

/-! ## Claim theorems -/

/-- C2. Fallback law: for every generation response whose trimmed non-blank
lines (`rawLines`) are non-empty but whose format-filtered subset is empty,
`generateCommitMessage` returns the raw lines verbatim together with the
format-mismatch warning. -/
theorem fallback_law (d rawText : String) (hd : d ≠ "")
    (h1 : rawLines rawText ≠ [])
    (h2 : (rawLines rawText).filter isValidSuggestion = []) :
    generateCommitMessage d (Except.ok rawText) =
      (some (rawLines rawText), [Event.genRequest d, Event.warnFormatMismatch]) := by
  have hraw : rawText ≠ "" := by
    intro h
    rw [h, rawLines_empty] at h1
    exact h1 rfl
  have h1' : (rawLines rawText).isEmpty = false := isEmpty_false_of_ne_nil h1
  simp only [generateCommitMessage, if_neg hd, if_neg hraw, h2, List.isEmpty_nil,
    h1', Bool.not_false, Bool.and_true, if_pos]

/-- Witness for the fallback law at a concrete malformed response. -/
theorem fallback_law_witness :
    generateCommitMessage "+x" (Except.ok "hello world") =
      (some (rawLines "hello world"),
        [Event.genRequest "+x", Event.warnFormatMismatch]) :=
  fallback_law "+x" "hello world" (by decide) (by decide) (by decide)

/-- C3. A generation response whose trimmed non-blank lines are exactly three
lines, each passing the format filter, yields exactly those three candidates
in their original order. -/
theorem three_valid_lines_returned (d rawText a b c : String) (hd : d ≠ "")
    (hr : rawLines rawText = [a, b, c])
    (ha : isValidSuggestion a = true) (hb : isValidSuggestion b = true)
    (hc : isValidSuggestion c = true) :
    (generateCommitMessage d (Except.ok rawText)).1 = some [a, b, c] := by
  have hraw : rawText ≠ "" := by
    intro h
    rw [h, rawLines_empty] at hr
    exact List.noConfusion hr
  have hfilter : List.filter isValidSuggestion [a, b, c] = [a, b, c] := by
    simp [List.filter, ha, hb, hc]
  simp [generateCommitMessage, hd, hraw, hr, hfilter]

/-- Witness for the three-line law at the concrete response of the spec's
scenario. -/
theorem three_valid_lines_returned_witness :
    (generateCommitMessage "+x"
        (Except.ok "feat(core): add x\nfix(core): remove y\ndocs(core): note x")).1 =
      some ["feat(core): add x", "fix(core): remove y", "docs(core): note x"] :=
  three_valid_lines_returned "+x"
    "feat(core): add x\nfix(core): remove y\ndocs(core): note x"
    "feat(core): add x" "fix(core): remove y" "docs(core): note x"
    (by decide) (by decide) (by decide) (by decide) (by decide)

/-- C4. The valid candidates are exactly the trimmed non-blank lines that
contain a colon and both parentheses and neither start nor end with a
triple-backtick marker; in particular every line starting or ending with a
triple-backtick marker is excluded. -/
theorem validSuggestions_characterization (rawText l : String) :
    (l ∈ validSuggestions rawText ↔
      (l ∈ rawLines rawText ∧ jsIncludes l ":" = true ∧ jsIncludes l "(" = true ∧
        jsIncludes l ")" = true ∧ jsStartsWith l "```" = false ∧
        jsEndsWith l "```" = false)) ∧
    ((jsStartsWith l "```" = true ∨ jsEndsWith l "```" = true) →
      l ∉ validSuggestions rawText) := by
  have hiff : l ∈ validSuggestions rawText ↔
      (l ∈ rawLines rawText ∧ jsIncludes l ":" = true ∧ jsIncludes l "(" = true ∧
        jsIncludes l ")" = true ∧ jsStartsWith l "```" = false ∧
        jsEndsWith l "```" = false) := by
    unfold validSuggestions isValidSuggestion
    rw [List.mem_filter]
    simp [Bool.and_eq_true, Bool.not_eq_true', and_assoc]
  refine ⟨hiff, ?_⟩
  intro hfence hmem
  have h := hiff.mp hmem
  rcases hfence with h1 | h2
  · rw [h.2.2.2.2.1] at h1
    exact Bool.noConfusion h1
  · rw [h.2.2.2.2.2] at h2
    exact Bool.noConfusion h2

/-- Witness for the candidate characterization: a well-formed line is kept
and the fence lines of the same response are excluded. -/
theorem validSuggestions_characterization_witness :
    "feat(a): x" ∈ validSuggestions "```js\nfeat(a): x\n```" ∧
      "```js" ∉ validSuggestions "```js\nfeat(a): x\n```" :=
  ⟨(validSuggestions_characterization "```js\nfeat(a): x\n```" "feat(a): x").1.mpr
      (by refine ⟨by decide, by decide, by decide, by decide, by decide, by decide⟩),
    (validSuggestions_characterization "```js\nfeat(a): x\n```" "```js").2
      (Or.inl (by decide))⟩

/-- C5. When the staged diff is empty or absent, the orchestrator ends the
run without issuing a generation request and without invoking the commit
operation. -/
theorem empty_diff_short_circuits (isRepo : Bool) (diffResult : Except String String)
    (genResult : Except Unit String) (inputs : List String) (g : GitState)
    (h : diffResult = Except.ok "" ∨ getStagedChanges isRepo diffResult = none) :
    (∀ p, Event.genRequest p ∉ mainRun isRepo diffResult genResult inputs g) ∧
      (∀ m s, Event.commitCall m s ∉ mainRun isRepo diffResult genResult inputs g) := by
  have hn : getStagedChanges isRepo diffResult = none := by
    rcases h with h | h
    · subst h
      cases isRepo <;> simp [getStagedChanges]
    · exact h
  constructor
  · intro p
    simp [mainRun, hn]
  · intro m s
    simp [mainRun, hn]

/-- Witness for the short-circuit law: with an empty staged diff no
generation request is issued. -/
theorem empty_diff_short_circuits_witness :
    Event.genRequest "+x" ∉
      mainRun true (Except.ok "") (Except.ok "feat(a): x") ["1"]
        ⟨1, "+x", Except.ok ()⟩ :=
  (empty_diff_short_circuits true (Except.ok "") (Except.ok "feat(a): x") ["1"]
      ⟨1, "+x", Except.ok ()⟩ (Or.inl rfl)).1 "+x"

/-- C7. The commit executor re-checks the staged status before committing:
when nothing is staged (empty staged file list and empty cached diff) it
returns `NothingToCommit` with no `commitCall` event, so the version-control
commit operation is never invoked; since the function is a pure function of
the request and the git state, a second invocation with the same request in
the same no-staged-changes state returns the same result with no side
effects. -/
theorem commit_recheck_nothing_staged (message : String) (sign : Bool) (g : GitState)
    (h0 : g.stagedCount = 0) (h1 : g.cachedDiff = "") :
    commitChanges message sign g = (CommitResult.nothingToCommit, []) := by
  simp [commitChanges, h0, h1]

/-- Witness for the staged-status re-check at a concrete empty git state. -/
theorem commit_recheck_nothing_staged_witness :
    commitChanges "fix(core): remove y" true ⟨0, "", Except.ok ()⟩ =
      (CommitResult.nothingToCommit, []) :=
  commit_recheck_nothing_staged "fix(core): remove y" true
    ⟨0, "", Except.ok ()⟩ (by decide) (by decide)

/-- C8 counterexample: the code matches the full phrases
"no changes added to commit" and "changes not staged for commit", not the
shorter phrases "no changes added" and "not staged"; a failure whose whole
message is one of the shorter phrases is classified as an other failure,
not as `NothingToCommit`. -/
theorem classify_short_phrases_counterexample :
    classifyCommitError "no changes added" false =
        CommitResult.otherFailure "no changes added" ∧
      classifyCommitError "not staged" false =
        CommitResult.otherFailure "not staged" ∧
      classifyCommitError "no changes added" false ≠ CommitResult.nothingToCommit := by
  decide

/-- C8 amended. The classification of a commit failure, on the lowercased
failure text: the phrases "nothing to commit", "no changes added to commit"
and "changes not staged for commit" yield `NothingToCommit`; otherwise the
signing phrases "gpg failed to sign the data" and "no default secret key"
yield `SigningFailed`, and only when signing was requested; every other
failure yields `OtherFailure` carrying the original detail. -/
theorem classify_commit_error_cases (e : String) (sign : Bool) :
    ((jsIncludes (jsToLower e) "nothing to commit" = true ∨
        jsIncludes (jsToLower e) "no changes added to commit" = true ∨
        jsIncludes (jsToLower e) "changes not staged for commit" = true) →
      classifyCommitError e sign = CommitResult.nothingToCommit) ∧
    (jsIncludes (jsToLower e) "nothing to commit" = false →
      jsIncludes (jsToLower e) "no changes added to commit" = false →
      jsIncludes (jsToLower e) "changes not staged for commit" = false →
      ((sign = true →
          (jsIncludes (jsToLower e) "gpg failed to sign the data" = true ∨
            jsIncludes (jsToLower e) "no default secret key" = true) →
          classifyCommitError e sign = CommitResult.signingFailed) ∧
        (jsIncludes (jsToLower e) "gpg failed to sign the data" = false →
          jsIncludes (jsToLower e) "no default secret key" = false →
          classifyCommitError e sign = CommitResult.otherFailure e))) ∧
    (classifyCommitError e false ≠ CommitResult.signingFailed) := by
  refine ⟨?_, ?_, ?_⟩
  · intro h
    rcases h with h | h | h <;> simp [classifyCommitError, h]
  · intro h1 h2 h3
    constructor
    · intro hs hg
      subst hs
      rcases hg with hg | hg <;> simp [classifyCommitError, h1, h2, h3, hg]
    · intro hg1 hg2
      simp [classifyCommitError, h1, h2, h3, hg1, hg2]
  · intro h
    simp only [classifyCommitError, Bool.false_and, Bool.false_eq_true, if_false] at h
    split at h
    · exact CommitResult.noConfusion h
    · exact CommitResult.noConfusion h

/-- Witness for the amended classification at a concrete git error text. -/
theorem classify_commit_error_cases_witness :
    classifyCommitError "On branch main, nothing to commit, working tree clean" false =
      CommitResult.nothingToCommit :=
  (classify_commit_error_cases
      "On branch main, nothing to commit, working tree clean" false).1
    (Or.inl (by decide))

/-- C9. The suggestion generator issues exactly one generation request per
non-empty diff and does not retry: on a transport failure or an empty
response it returns no candidates (the JavaScript `null`) together with a
printed diagnostic; the embedding is a total function, which reflects the
try/catch that never lets an exception escape to the operator. -/
theorem generator_single_request (d : String) (genResult : Except Unit String)
    (hd : d ≠ "") :
    (generateCommitMessage d genResult).2.countP isGenRequest = 1 ∧
      (genResult = Except.error () →
        (generateCommitMessage d genResult).1 = none ∧
          Event.errApi ∈ (generateCommitMessage d genResult).2) ∧
      (genResult = Except.ok "" →
        (generateCommitMessage d genResult).1 = none ∧
          Event.errNoText ∈ (generateCommitMessage d genResult).2) := by
  refine ⟨?_, ?_, ?_⟩
  · cases genResult with
    | error u =>
      simp only [generateCommitMessage, if_neg hd]
      rfl
    | ok rawText =>
      by_cases hr : rawText = ""
      · subst hr
        simp only [generateCommitMessage, if_neg hd]
        rfl
      · simp only [generateCommitMessage, if_neg hd, if_neg hr]
        split
        · rfl
        · split
          · rfl
          · rfl
  · intro h
    subst h
    simp [generateCommitMessage, hd]
  · intro h
    subst h
    simp [generateCommitMessage, hd]

/-- Witness for the single-request law on a transport failure. -/
theorem generator_single_request_witness :
    (generateCommitMessage "+x" (Except.error ())).2.countP isGenRequest = 1 ∧
      (generateCommitMessage "+x" (Except.error ())).1 = none :=
  ⟨(generator_single_request "+x" (Except.error ()) (by decide)).1,
    ((generator_single_request "+x" (Except.error ()) (by decide)).2.1 rfl).1⟩

/-- A commit-call event of `commitChanges` always carries the request's own
message and signing flag. -/
lemma commitCall_mem {msg : String} {sign : Bool} {g : GitState} {m : String}
    {s : Bool} (h : Event.commitCall m s ∈ (commitChanges msg sign g).2) :
    m = msg ∧ s = sign := by
  unfold commitChanges at h
  split at h
  · simp at h
  · split at h <;> simpa using h

/-- C10. In the number-choosing state an input token is accepted whenever
its leading decimal-integer prefix parses in range: for every non-empty
candidate list and every input whose `parseInt` value `k` satisfies
`1 <= k <= N`, candidate `k` is selected immediately (no re-prompt),
leaving the rest of the input stream unread. -/
theorem number_prefix_selects (sugg : List String) (c : String)
    (rest : List String) (k : Int) (hne : sugg ≠ [])
    (hp : jsParseInt c = some k) (h1 : 1 ≤ k) (h2 : k ≤ (sugg.length : Int)) :
    chooseMessage (some sugg) (c :: rest) =
      (SelStep.chosen (sugg.getD (k - 1).toNat ""), rest) := by
  have hie : sugg.isEmpty = false := isEmpty_false_of_ne_nil hne
  cases rest with
  | nil =>
    simp only [chooseMessage, hie, Bool.false_eq_true, if_false, chooseLoop, hp]
    rw [if_pos ⟨h1, h2⟩]
  | cons m r2 =>
    simp only [chooseMessage, hie, Bool.false_eq_true, if_false, chooseLoop, hp]
    rw [if_pos ⟨h1, h2⟩]

/-- Witness for the integer-prefix law: the input token `2abc` parses to 2
and selects the second candidate. -/
theorem number_prefix_selects_witness :
    chooseMessage (some ["feat(a): b", "fix(c): d"]) ["2abc"] =
      (SelStep.chosen "fix(c): d", []) :=
  number_prefix_selects ["feat(a): b", "fix(c): d"] "2abc" [] 2
    (by decide) (by decide) (by decide) (by decide)

/-- C6 counterexample: in the empty-candidates branch, after the operator
accepts manual entry, a blank (after trimming) message does not loop back
for another attempt; the flow cancels immediately, leaving the following
non-blank answer unread. -/
theorem manual_blank_cancels_counterexample :
    chooseMessage none ["y", "", "feat(a): x"] =
      (SelStep.cancelled, ["feat(a): x"]) := by
  decide

/-- C6 amended. In the manual-entry state reached from the number-choosing
branch, a blank (after trimming) input loops back to the choice loop of the
same branch (it does not cancel), and a non-blank input becomes the chosen
message; in the empty-candidates branch, declining manual entry cancels
immediately and a blank manual message also cancels immediately, while a
non-blank manual message becomes the chosen message. -/
theorem manual_entry_behaviour (sugg : List String) (c b : String)
    (rest : List String) (hne : sugg ≠ [])
    (hc : jsParseInt c = some ((sugg.length : Int) + 1)) :
    (jsTrim b = "" →
      chooseMessage (some sugg) (c :: b :: rest) = chooseLoop sugg rest) ∧
    (jsTrim b ≠ "" →
      chooseMessage (some sugg) (c :: b :: rest) = (SelStep.chosen (jsTrim b), rest)) ∧
    (jsTrim b = "" →
      chooseMessage none ("y" :: b :: rest) = (SelStep.cancelled, rest)) ∧
    (∀ d, jsToLower d ≠ "y" →
      chooseMessage none (d :: rest) = (SelStep.cancelled, rest)) ∧
    (jsTrim b ≠ "" →
      chooseMessage none ("y" :: b :: rest) = (SelStep.chosen (jsTrim b), rest)) := by
  have hie : sugg.isEmpty = false := isEmpty_false_of_ne_nil hne
  have hguard : ¬(1 ≤ (sugg.length : Int) + 1 ∧
      (sugg.length : Int) + 1 ≤ (sugg.length : Int)) := by
    rintro ⟨-, h⟩
    omega
  have hy : jsToLower "y" = "y" := rfl
  have heq : ((sugg.length : Int) + 1 = (sugg.length : Int) + 1) := rfl
  refine ⟨?_, ?_, ?_, ?_, ?_⟩
  · intro hb
    have hnb : ¬(jsTrim b ≠ "") := fun hcon => hcon hb
    simp only [chooseMessage, hie, Bool.false_eq_true, if_false, chooseLoop, hc,
      if_neg hguard, if_pos heq, if_true, if_neg hnb]
  · intro hb
    simp only [chooseMessage, hie, Bool.false_eq_true, if_false, chooseLoop, hc,
      if_neg hguard, if_pos heq, if_true, if_pos hb]
  · intro hb
    have hnb : ¬(jsTrim b ≠ "") := fun hcon => hcon hb
    simp only [chooseMessage, emptyBranch, if_pos hy, if_neg hnb]
  · intro d hd
    cases rest with
    | nil => simp only [chooseMessage, emptyBranch, if_neg hd]
    | cons m r2 => simp only [chooseMessage, emptyBranch, if_neg hd]
  · intro hb
    simp only [chooseMessage, emptyBranch, if_pos hy, if_pos hb]

/-- Witness for the manual-entry behaviour: with one candidate, choosing
option 2 (manual) and then a blank line returns to the choice loop. -/
theorem manual_entry_behaviour_witness :
    chooseMessage (some ["feat(a): b"]) ["2", "", "1"] =
      chooseLoop ["feat(a): b"] ["1"] :=
  (manual_entry_behaviour ["feat(a): b"] "2" "" ["1"]
      (by decide) (by decide)).1 (by decide)

/-- C1. A commit is attempted iff a non-empty chosen message was explicitly
confirmed: a `CommitRequest` is produced only when the selection phase ended
in a non-empty chosen message and the confirmation prompt was answered `y`
(case-insensitively), so never for a confirmation answered "no"; the commit
operation is invoked only with the message and flag of such a request; and
conversely, when a non-empty chosen message is confirmed affirmatively and
the signing prompt is answered, the commit executor is invoked. -/
theorem selection_confirmation_invariant (sugg : Option (List String))
    (inputs : List String) (g : GitState) :
    (∀ req, selectionOutcome sugg inputs = some req →
      req.message ≠ "" ∧
        ∃ conf rest, chooseMessage sugg inputs = (SelStep.chosen req.message, conf :: rest) ∧
          jsToLower conf = "y") ∧
    (∀ m s, Event.commitCall m s ∈ (selectAndCommit sugg inputs g).2 →
      ∃ req, selectionOutcome sugg inputs = some req ∧ req.message = m ∧ req.sign = s) ∧
    (∀ msg conf sgn rest,
      chooseMessage sugg inputs = (SelStep.chosen msg, conf :: sgn :: rest) →
      msg ≠ "" → jsToLower conf = "y" →
      (selectAndCommit sugg inputs g).1 =
        some (commitChanges msg (jsToLower sgn == "y") g).1) := by
  refine ⟨?_, ?_, ?_⟩
  · intro req h
    cases hcm : chooseMessage sugg inputs with
    | mk step rest0 =>
      simp only [selectionOutcome, hcm] at h
      cases step with
      | chosen m =>
        simp only [afterChoice] at h
        by_cases hm : m ≠ ""
        · rw [if_pos hm] at h
          cases rest0 with
          | nil => simp [confirmSign] at h
          | cons conf rest1 =>
            cases rest1 with
            | nil => simp [confirmSign] at h
            | cons s2 rest2 =>
              by_cases hy : jsToLower conf = "y"
              · simp only [confirmSign, if_pos hy] at h
                simp only [Option.some.injEq] at h
                subst h
                exact ⟨hm, conf, s2 :: rest2, rfl, hy⟩
              · simp only [confirmSign, if_neg hy] at h
                exact Option.noConfusion h
        · rw [if_neg hm] at h
          exact Option.noConfusion h
      | cancelled =>
        simp only [afterChoice] at h
        exact Option.noConfusion h
      | blocked =>
        simp only [afterChoice] at h
        exact Option.noConfusion h
  · intro m s hmem
    cases ho : selectionOutcome sugg inputs with
    | none => simp [selectAndCommit, ho] at hmem
    | some req =>
      simp only [selectAndCommit, ho] at hmem
      obtain ⟨h1, h2⟩ := commitCall_mem hmem
      exact ⟨req, rfl, h1.symm, h2.symm⟩
  · intro msg conf sgn rest hcm hmsg hy
    have ho : selectionOutcome sugg inputs = some ⟨msg, jsToLower sgn == "y"⟩ := by
      simp only [selectionOutcome, hcm, afterChoice, if_pos hmsg, confirmSign, if_pos hy]
    simp [selectAndCommit, ho]

/-- Witness for the confirmation invariant, at the spec's scenario: the
operator picks candidate 2, confirms with `y`, declines signing. -/
theorem selection_confirmation_invariant_witness :
    ("fix(core): y" : String) ≠ "" ∧
      ∃ conf rest,
        chooseMessage (some ["feat(a): x", "fix(core): y"]) ["2", "y", "n"] =
          (SelStep.chosen "fix(core): y", conf :: rest) ∧ jsToLower conf = "y" := by
  have h := (selection_confirmation_invariant (some ["feat(a): x", "fix(core): y"])
      ["2", "y", "n"] ⟨1, "+x", Except.ok ()⟩).1 ⟨"fix(core): y", false⟩ (by decide)
  exact h

end AutoCommit
